import Mathlib

/-!
Verification of the XYZgeomag core (src/geomag.hpp) against its design
specification.

The embedding is a direct shallow translation of the C++ header into Lean:
machine `float` arithmetic is modelled by exact rational arithmetic (`ℚ`),
the C library function `sqrtf` is modelled by an explicit function
parameter `sqrtf : ℚ → ℚ`, and the fixed-length coefficient arrays are
modelled by lists accessed with `List.getD` (out-of-range reads, which the
safety theorems show never happen on the traversal, default to `0`).
All loops of `GeoMag` are translated into structural recursions with the
same iteration counts and the same body, statement for statement.
-/

namespace Geomag

/-- Order of the model, `constexpr int NMAX = 12` in geomag.hpp line 49. -/
def NMAX : ℕ := 12

/-- Number of coefficients, `(NMAX+1)*(NMAX+2)/2`, geomag.hpp line 50. -/
def NUMCOF : ℕ := (NMAX + 1) * (NMAX + 2) / 2

/-- The coefficient store `struct ConstModel`, geomag.hpp lines 51 - 73.
Each of the four tables has length `NUMCOF` in the C struct; here they are
lists read with `List.getD`. -/
structure ConstModel where
  epoch : ℚ
  Main_Field_Coeff_C : List ℚ
  Main_Field_Coeff_S : List ℚ
  Secular_Var_Coeff_C : List ℚ
  Secular_Var_Coeff_S : List ℚ

/-- The triangular index `(m*(2*NMAX-m+1))/2+n` computed inside
`ConstModel::C` and `ConstModel::S`, geomag.hpp lines 59 and 67. -/
def coefIndex (n m : ℕ) : ℕ := (m * (2 * NMAX - m + 1)) / 2 + n

/-- Time-corrected cosine coefficient lookup `ConstModel::C`,
geomag.hpp lines 58 - 64. -/
def ConstModel.C (w : ConstModel) (n m : ℕ) (dyear : ℚ) : ℚ :=
  w.Main_Field_Coeff_C.getD (coefIndex n m) 0
    + (dyear - w.epoch) * w.Secular_Var_Coeff_C.getD (coefIndex n m) 0

/-- Time-corrected sine coefficient lookup `ConstModel::S`,
geomag.hpp lines 66 - 72. -/
def ConstModel.S (w : ConstModel) (n m : ℕ) (dyear : ℚ) : ℚ :=
  w.Main_Field_Coeff_S.getD (coefIndex n m) 0
    + (dyear - w.epoch) * w.Secular_Var_Coeff_S.getD (coefIndex n m) 0

/-- Mean radius of the ellipsoid in meters, geomag.hpp line 75. -/
def EARTH_R : ℚ := 6371200

/-- The 3-component vector type, geomag.hpp lines 77 - 81. -/
structure Vector where
  x : ℚ
  y : ℚ
  z : ℚ
deriving DecidableEq

/-- The scalars of `GeoMag` that are fixed for the whole double loop:
the scaled position quantities `a`, `b`, `f`, `g` (geomag.hpp
lines 96 - 101), the seed value `EARTH_R/sqrtf(rsqrd)` (line 105), the
query time and the model reference. -/
structure Ctx where
  a : ℚ
  b : ℚ
  f : ℚ
  g : ℚ
  v00 : ℚ
  dyear : ℚ
  model : ConstModel

/-- The mutable locals of the double loop of `GeoMag`:
`Vtop, Wtop, Vprev, Wprev, Vnm, Wnm` (geomag.hpp lines 105 - 110) and the
three gradient accumulators `px, py, pz` (lines 93 - 95). -/
structure LoopState where
  Vtop : ℚ
  Wtop : ℚ
  Vprev : ℚ
  Wprev : ℚ
  Vnm : ℚ
  Wnm : ℚ
  px : ℚ
  py : ℚ
  pz : ℚ

/-- The recurrence part of the loop body, geomag.hpp lines 118 - 137:
the diagonal step at `n == m` (lines 119 - 127, a no-op when `m == 0`)
and the vertical step at `n > m` (lines 129 - 137). -/
def bodyV (c : Ctx) (m n : ℕ) (s : LoopState) : LoopState :=
  if n = m then
    if m ≠ 0 then
      { s with
        Vtop := (2 * (m : ℚ) - 1) * (c.a * s.Vtop - c.b * s.Wtop)
        Wtop := (2 * (m : ℚ) - 1) * (c.a * s.Wtop + c.b * s.Vtop)
        Vprev := 0
        Wprev := 0
        Vnm := (2 * (m : ℚ) - 1) * (c.a * s.Vtop - c.b * s.Wtop)
        Wnm := (2 * (m : ℚ) - 1) * (c.a * s.Wtop + c.b * s.Vtop) }
    else s
  else
    { s with
      Vnm := ((2 * (n : ℚ) - 1) * c.f * s.Vnm
                - ((n : ℚ) + (m : ℚ) - 1) * c.g * s.Vprev)
              * (1 / ((n : ℚ) - (m : ℚ)))
      Vprev := s.Vnm
      Wnm := ((2 * (n : ℚ) - 1) * c.f * s.Wnm
                - ((n : ℚ) + (m : ℚ) - 1) * c.g * s.Wprev)
              * (1 / ((n : ℚ) - (m : ℚ)))
      Wprev := s.Wnm }

/-- The accumulation part of the loop body, the four guarded updates of
`px, py, pz`, geomag.hpp lines 138 - 152. -/
def bodyAcc (c : Ctx) (m n : ℕ) (s : LoopState) : LoopState :=
  let s1 := if m < NMAX ∧ m + 2 ≤ n then
    { s with
      px := s.px + (1 / 2) * ((n : ℚ) - (m : ℚ)) * ((n : ℚ) - (m : ℚ) - 1)
              * (c.model.C (n - 1) (m + 1) c.dyear * s.Vnm
                  + c.model.S (n - 1) (m + 1) c.dyear * s.Wnm)
      py := s.py + (1 / 2) * ((n : ℚ) - (m : ℚ)) * ((n : ℚ) - (m : ℚ) - 1)
              * (-(c.model.C (n - 1) (m + 1) c.dyear) * s.Wnm
                  + c.model.S (n - 1) (m + 1) c.dyear * s.Vnm) }
    else s
  let s2 := if 2 ≤ n ∧ 2 ≤ m then
    { s1 with
      px := s1.px + (1 / 2) * (-(c.model.C (n - 1) (m - 1) c.dyear) * s.Vnm
                  - c.model.S (n - 1) (m - 1) c.dyear * s.Wnm)
      py := s1.py + (1 / 2) * (-(c.model.C (n - 1) (m - 1) c.dyear) * s.Wnm
                  + c.model.S (n - 1) (m - 1) c.dyear * s.Vnm) }
    else s1
  let s3 := if m = 1 ∧ 2 ≤ n then
    { s2 with
      px := s2.px + -(c.model.C (n - 1) 0 c.dyear) * s.Vnm
      py := s2.py + -(c.model.C (n - 1) 0 c.dyear) * s.Wnm }
    else s2
  let s4 := if 2 ≤ n ∧ m < n then
    { s3 with
      pz := s3.pz + ((n : ℚ) - (m : ℚ)) * (-(c.model.C (n - 1) m c.dyear) * s.Vnm
                  - c.model.S (n - 1) m c.dyear * s.Wnm) }
    else s3
  s4

/-- One full iteration of the inner loop body of `GeoMag` at pair `(m, n)`:
recurrence update then accumulation, geomag.hpp lines 118 - 152. -/
def stepBody (c : Ctx) (m n : ℕ) (s : LoopState) : LoopState :=
  bodyAcc c m n (bodyV c m n s)

/-- The inner loop of `GeoMag` (geomag.hpp line 116): run `stepBody` at
orders `n0, n0+1, ..., n0+k-1` for the fixed `m`. -/
def runInner (c : Ctx) (m : ℕ) : LoopState → ℕ → ℕ → LoopState
  | s, _, 0 => s
  | s, n0, k + 1 => runInner c m (stepBody c m n0 s) (n0 + 1) k

/-- The outer loop of `GeoMag` (geomag.hpp line 113): run the rows
`m0, m0+1, ..., m0+k-1`, where row `m` iterates `n` from `m` to `NMAX+1`,
hence `NMAX + 2 - m` inner iterations. -/
def runRows (c : Ctx) : LoopState → ℕ → ℕ → LoopState
  | s, _, 0 => s
  | s, m0, k + 1 => runRows c (runInner c m0 s m0 (NMAX + 2 - m0)) (m0 + 1) k

/-- The loop locals just before the first iteration,
geomag.hpp lines 93 - 110. -/
def initState (c : Ctx) : LoopState :=
  { Vtop := c.v00, Wtop := 0, Vprev := 0, Wprev := 0
    Vnm := c.v00, Wnm := 0, px := 0, py := 0, pz := 0 }

/-- The loop-invariant scalars computed by `GeoMag` from its inputs,
geomag.hpp lines 90 - 110.  The C library call `sqrtf` is modelled by the
explicit function argument `sqrtf`. -/
def mkCtx (dyear : ℚ) (position_itrs : Vector) (WMM : ConstModel)
    (sqrtf : ℚ → ℚ) : Ctx :=
  let x := position_itrs.x
  let y := position_itrs.y
  let z := position_itrs.z
  let rsqrd := x * x + y * y + z * z
  let temp := EARTH_R / rsqrd
  { a := x * temp, b := y * temp, f := z * temp, g := EARTH_R * temp
    v00 := EARTH_R / sqrtf rsqrd, dyear := dyear, model := WMM }

/-- The magnetic field function `GeoMag`, geomag.hpp lines 89 - 156. -/
def GeoMag (dyear : ℚ) (position_itrs : Vector) (WMM : ConstModel)
    (sqrtf : ℚ → ℚ) : Vector :=
  let c := mkCtx dyear position_itrs WMM sqrtf
  let s := runRows c (initState c) 0 (NMAX + 2)
  { x := -s.px * (1 / 1000000000)
    y := -s.py * (1 / 1000000000)
    z := -s.pz * (1 / 1000000000) }

/-- Full-table evaluation of the auxiliary recurrence, written from the
spec (section 4.2): seed `V(0,0) = R/sqrt(r^2)`, `W(0,0) = 0`; diagonal
step `V(m,m) = (2m-1)(a V(m-1,m-1) - b W(m-1,m-1))` and
`W(m,m) = (2m-1)(a W(m-1,m-1) + b V(m-1,m-1))`; vertical step
`V(n,m) = ((2n-1) f V(n-1,m) - (n+m-1) g V(n-2,m)) / (n-m)` and
symmetrically for `W`, with values below the diagonal (`n < m`, and the
`V(m-1,m)` read by the first vertical step) equal to `0`.  Used as the
abstract side of the refinement claim about the three-scalar streaming
loop. -/
def VW (c : Ctx) (n m : ℕ) : ℚ × ℚ :=
  if h1 : n < m then (0, 0)
  else if h2 : n = m then
    if h3 : m = 0 then (c.v00, 0)
    else
      let p := VW c (m - 1) (m - 1)
      ((2 * (m : ℚ) - 1) * (c.a * p.1 - c.b * p.2),
       (2 * (m : ℚ) - 1) * (c.a * p.2 + c.b * p.1))
  else
    let p := VW c (n - 1) m
    let q := if m + 2 ≤ n then VW c (n - 2) m else (0, 0)
    (((2 * (n : ℚ) - 1) * c.f * p.1 - ((n : ℚ) + (m : ℚ) - 1) * c.g * q.1)
        / ((n : ℚ) - (m : ℚ)),
     ((2 * (n : ℚ) - 1) * c.f * p.2 - ((n : ℚ) + (m : ℚ) - 1) * c.g * q.2)
        / ((n : ℚ) - (m : ℚ)))
termination_by n
decreasing_by
  · omega
  · omega
  · omega

/-- The list of `(m, n)` pairs visited by the double loop of `GeoMag`
(geomag.hpp lines 113 - 116), in visiting order: `m` from `0` to `NMAX+1`
and, for each `m`, `n` from `m` to `NMAX+1`. -/
def traversal : List (ℕ × ℕ) :=
  (List.range (NMAX + 2)).flatMap
    (fun m => (List.range' m (NMAX + 2 - m)).map (fun n => (m, n)))

/-- The degree/order pairs at which the body of `GeoMag` reads the
coefficient tables at pair `(m, n)`, one entry per satisfied guard,
geomag.hpp lines 138 - 152. -/
def lookupsAt (m n : ℕ) : List (ℕ × ℕ) :=
  (if m < NMAX ∧ m + 2 ≤ n then [(n - 1, m + 1)] else [])
    ++ (if 2 ≤ n ∧ 2 ≤ m then [(n - 1, m - 1)] else [])
    ++ (if m = 1 ∧ 2 ≤ n then [(n - 1, 0)] else [])
    ++ (if 2 ≤ n ∧ m < n then [(n - 1, m)] else [])

/-- Number of guards of the four accumulation rules that hold at `(m, n)`,
mirroring the conditions of geomag.hpp lines 138, 142, 146 and 150. -/
def guardCount (m n : ℕ) : ℕ :=
  (if m < NMAX ∧ m + 2 ≤ n then 1 else 0)
    + (if 2 ≤ n ∧ 2 ≤ m then 1 else 0)
    + (if m = 1 ∧ 2 ≤ n then 1 else 0)
    + (if 2 ≤ n ∧ m < n then 1 else 0)

/-- Contribution added to `px` at pair `(m, n)` when the three `px` rules
of geomag.hpp lines 138 - 149 are evaluated with values `v`, `w` standing
for `Vnm`, `Wnm`. -/
def pxTermAt (c : Ctx) (m n : ℕ) (v w : ℚ) : ℚ :=
  (if m < NMAX ∧ m + 2 ≤ n then
    (1 / 2) * ((n : ℚ) - (m : ℚ)) * ((n : ℚ) - (m : ℚ) - 1)
      * (c.model.C (n - 1) (m + 1) c.dyear * v
          + c.model.S (n - 1) (m + 1) c.dyear * w) else 0)
  + (if 2 ≤ n ∧ 2 ≤ m then
    (1 / 2) * (-(c.model.C (n - 1) (m - 1) c.dyear) * v
          - c.model.S (n - 1) (m - 1) c.dyear * w) else 0)
  + (if m = 1 ∧ 2 ≤ n then -(c.model.C (n - 1) 0 c.dyear) * v else 0)

/-- Contribution added to `py` at pair `(m, n)`, geomag.hpp
lines 138 - 149. -/
def pyTermAt (c : Ctx) (m n : ℕ) (v w : ℚ) : ℚ :=
  (if m < NMAX ∧ m + 2 ≤ n then
    (1 / 2) * ((n : ℚ) - (m : ℚ)) * ((n : ℚ) - (m : ℚ) - 1)
      * (-(c.model.C (n - 1) (m + 1) c.dyear) * w
          + c.model.S (n - 1) (m + 1) c.dyear * v) else 0)
  + (if 2 ≤ n ∧ 2 ≤ m then
    (1 / 2) * (-(c.model.C (n - 1) (m - 1) c.dyear) * w
          + c.model.S (n - 1) (m - 1) c.dyear * v) else 0)
  + (if m = 1 ∧ 2 ≤ n then -(c.model.C (n - 1) 0 c.dyear) * w else 0)

/-- Contribution added to `pz` at pair `(m, n)`, the vertical rule of
geomag.hpp lines 150 - 152. -/
def pzTermAt (c : Ctx) (m n : ℕ) (v w : ℚ) : ℚ :=
  if 2 ≤ n ∧ m < n then
    ((n : ℚ) - (m : ℚ)) * (-(c.model.C (n - 1) m c.dyear) * v
          - c.model.S (n - 1) m c.dyear * w) else 0

/-- The `px` contribution of the spec at pair `(m, n)`: the guarded rules
evaluated with the recurrence values `V(n,m)` and `W(n,m)`. -/
def pxContrib (c : Ctx) (m n : ℕ) : ℚ :=
  pxTermAt c m n (VW c n m).1 (VW c n m).2

/-- The `py` contribution of the spec at pair `(m, n)`. -/
def pyContrib (c : Ctx) (m n : ℕ) : ℚ :=
  pyTermAt c m n (VW c n m).1 (VW c n m).2

/-- The `pz` contribution of the spec at pair `(m, n)`. -/
def pzContrib (c : Ctx) (m n : ℕ) : ℚ :=
  pzTermAt c m n (VW c n m).1 (VW c n m).2

/-- Sum of a per-pair quantity over one full row of the traversal:
`n` from `m` to `NMAX + 1`. -/
def rowSum (g : ℕ → ℕ → ℚ) (m : ℕ) : ℚ :=
  ((List.range' m (NMAX + 2 - m)).map (g m)).sum

/-- Sum of a per-pair quantity over the traversal up to and including pair
`(m, n)`: all rows before `m`, then the row `m` up to `n`. -/
def upTo (g : ℕ → ℕ → ℚ) (m n : ℕ) : ℚ :=
  ((List.range m).map (rowSum g)).sum
    + ((List.range' m (n + 1 - m)).map (g m)).sum

/-- Sum of a per-pair quantity over the whole traversal: `m` from `0` to
`NMAX + 1` and, for each, `n` from `m` to `NMAX + 1`. -/
def totalSum (g : ℕ → ℕ → ℚ) : ℚ :=
  ((List.range (NMAX + 2)).map (rowSum g)).sum

/-- The loop state of `GeoMag` after processing all pairs up to and
including `(m, n)` in traversal order (rows `0, ..., m-1` complete, then
row `m` up to `n`). -/
def stateAfter (c : Ctx) (m n : ℕ) : LoopState :=
  runInner c m (runRows c (initState c) 0 m) m (n + 1 - m)

/-- The three-scalar streaming state agrees with the full-table recurrence
after processing pair `(m, n)`: `Vnm`/`Wnm` hold `V(n,m)`/`W(n,m)`,
`Vtop`/`Wtop` hold the current diagonal, `Vprev`/`Wprev` hold the values
one degree below (zero right at the diagonal). -/
def StateInv (c : Ctx) (m n : ℕ) (s : LoopState) : Prop :=
  s.Vtop = (VW c m m).1 ∧ s.Wtop = (VW c m m).2
    ∧ s.Vnm = (VW c n m).1 ∧ s.Wnm = (VW c n m).2
    ∧ s.Vprev = (if n = m then 0 else (VW c (n - 1) m).1)
    ∧ s.Wprev = (if n = m then 0 else (VW c (n - 1) m).2)

/-- The gradient accumulators equal the partial sums of the spec
contributions over the pairs processed so far. -/
def AccInv (c : Ctx) (m n : ℕ) (s : LoopState) : Prop :=
  s.px = upTo (pxContrib c) m n ∧ s.py = upTo (pyContrib c) m n
    ∧ s.pz = upTo (pzContrib c) m n

/-- Combined loop invariant after processing pair `(m, n)`. -/
def Inv (c : Ctx) (m n : ℕ) (s : LoopState) : Prop :=
  StateInv c m n s ∧ AccInv c m n s

/-- All pairs `(n, m)` of the valid packing domain `0 ≤ m ≤ n ≤ NMAX`. -/
def domPairs : List (ℕ × ℕ) :=
  (List.range (NMAX + 1)).flatMap
    (fun m => (List.range' m (NMAX + 1 - m)).map (fun n => (n, m)))

/-- The model with both secular-variation tables replaced by zeros of the
same length. -/
def zeroSv (w : ConstModel) : ConstModel :=
  { w with
    Secular_Var_Coeff_C := w.Secular_Var_Coeff_C.map (fun _ => 0)
    Secular_Var_Coeff_S := w.Secular_Var_Coeff_S.map (fun _ => 0) }

/-- A small synthetic coefficient store used to instantiate the universal
theorems at a concrete input. -/
def testModel : ConstModel :=
  { epoch := 2015
    Main_Field_Coeff_C := [3, 1, 2]
    Main_Field_Coeff_S := [0, 4, 5]
    Secular_Var_Coeff_C := [1, 2, 0]
    Secular_Var_Coeff_S := [0, 1, 2] }

/-- A second synthetic store differing from `testModel` exactly at
index `0` of each table. -/
def testModel0 : ConstModel :=
  { epoch := 2015
    Main_Field_Coeff_C := [7, 1, 2]
    Main_Field_Coeff_S := [9, 4, 5]
    Secular_Var_Coeff_C := [5, 2, 0]
    Secular_Var_Coeff_S := [4, 1, 2] }

/-- A concrete position used by the witness theorems. -/
def testPos : Vector := { x := 1, y := 2, z := 3 }

/-- A concrete stand-in for the square-root function parameter. -/
def idq : ℚ → ℚ := fun x => x

/-! Helper lemmas: projections of the loop body. -/

lemma bodyAcc_Vtop (c : Ctx) (m n : ℕ) (s : LoopState) :
    (bodyAcc c m n s).Vtop = s.Vtop := by
  simp only [bodyAcc]; split_ifs <;> rfl

lemma bodyAcc_Wtop (c : Ctx) (m n : ℕ) (s : LoopState) :
    (bodyAcc c m n s).Wtop = s.Wtop := by
  simp only [bodyAcc]; split_ifs <;> rfl

lemma bodyAcc_Vnm (c : Ctx) (m n : ℕ) (s : LoopState) :
    (bodyAcc c m n s).Vnm = s.Vnm := by
  simp only [bodyAcc]; split_ifs <;> rfl

lemma bodyAcc_Wnm (c : Ctx) (m n : ℕ) (s : LoopState) :
    (bodyAcc c m n s).Wnm = s.Wnm := by
  simp only [bodyAcc]; split_ifs <;> rfl

lemma bodyAcc_Vprev (c : Ctx) (m n : ℕ) (s : LoopState) :
    (bodyAcc c m n s).Vprev = s.Vprev := by
  simp only [bodyAcc]; split_ifs <;> rfl

lemma bodyAcc_Wprev (c : Ctx) (m n : ℕ) (s : LoopState) :
    (bodyAcc c m n s).Wprev = s.Wprev := by
  simp only [bodyAcc]; split_ifs <;> rfl

lemma bodyAcc_px (c : Ctx) (m n : ℕ) (s : LoopState) :
    (bodyAcc c m n s).px = s.px + pxTermAt c m n s.Vnm s.Wnm := by
  simp only [bodyAcc, pxTermAt]; split_ifs <;> simp <;> ring

lemma bodyAcc_py (c : Ctx) (m n : ℕ) (s : LoopState) :
    (bodyAcc c m n s).py = s.py + pyTermAt c m n s.Vnm s.Wnm := by
  simp only [bodyAcc, pyTermAt]; split_ifs <;> simp <;> ring

lemma bodyAcc_pz (c : Ctx) (m n : ℕ) (s : LoopState) :
    (bodyAcc c m n s).pz = s.pz + pzTermAt c m n s.Vnm s.Wnm := by
  simp only [bodyAcc, pzTermAt]; split_ifs <;> simp

lemma bodyV_px (c : Ctx) (m n : ℕ) (s : LoopState) :
    (bodyV c m n s).px = s.px := by
  simp only [bodyV]; split_ifs <;> rfl

lemma bodyV_py (c : Ctx) (m n : ℕ) (s : LoopState) :
    (bodyV c m n s).py = s.py := by
  simp only [bodyV]; split_ifs <;> rfl

lemma bodyV_pz (c : Ctx) (m n : ℕ) (s : LoopState) :
    (bodyV c m n s).pz = s.pz := by
  simp only [bodyV]; split_ifs <;> rfl

/-! Helper lemmas: unfolding the full-table recurrence. -/

lemma VW_zero (c : Ctx) : VW c 0 0 = (c.v00, 0) := by
  rw [VW]; simp

lemma VW_diag (c : Ctx) (m : ℕ) :
    VW c (m + 1) (m + 1)
      = ((2 * ((m : ℚ) + 1) - 1) * (c.a * (VW c m m).1 - c.b * (VW c m m).2),
         (2 * ((m : ℚ) + 1) - 1) * (c.a * (VW c m m).2 + c.b * (VW c m m).1)) := by
  rw [VW]
  simp only [lt_irrefl, dite_false, dite_true, Nat.add_sub_cancel,
    Nat.succ_ne_zero, dif_neg, dif_pos rfl]
  push_cast
  rfl

lemma VW_vert (c : Ctx) (n m : ℕ) (h : m < n) :
    VW c n m
      = (((2 * (n : ℚ) - 1) * c.f * (VW c (n - 1) m).1
            - ((n : ℚ) + (m : ℚ) - 1) * c.g
                * (if m + 2 ≤ n then (VW c (n - 2) m).1 else 0))
          / ((n : ℚ) - (m : ℚ)),
         ((2 * (n : ℚ) - 1) * c.f * (VW c (n - 1) m).2
            - ((n : ℚ) + (m : ℚ) - 1) * c.g
                * (if m + 2 ≤ n then (VW c (n - 2) m).2 else 0))
          / ((n : ℚ) - (m : ℚ))) := by
  rw [VW]
  have h1 : ¬ n < m := by omega
  have h2 : n ≠ m := by omega
  simp only [h1, h2, dif_neg, not_false_iff]
  by_cases h3 : m + 2 ≤ n <;> simp [h3]

/-! Helper lemmas: peeling the last iteration off the loops. -/

lemma runInner_succ (c : Ctx) (m : ℕ) :
    ∀ (k : ℕ) (s : LoopState) (n0 : ℕ),
      runInner c m s n0 (k + 1) = stepBody c m (n0 + k) (runInner c m s n0 k) := by
  intro k
  induction k with
  | zero => intro s n0; rfl
  | succ k ih =>
      intro s n0
      show runInner c m (stepBody c m n0 s) (n0 + 1) (k + 1) = _
      rw [ih (stepBody c m n0 s) (n0 + 1)]
      have h : n0 + 1 + k = n0 + (k + 1) := by omega
      rw [h]
      rfl

lemma runRows_succ (c : Ctx) :
    ∀ (k : ℕ) (s : LoopState) (m0 : ℕ),
      runRows c s m0 (k + 1)
        = runInner c (m0 + k) (runRows c s m0 k) (m0 + k) (NMAX + 2 - (m0 + k)) := by
  intro k
  induction k with
  | zero => intro s m0; simp [runRows]
  | succ k ih =>
      intro s m0
      show runRows c (runInner c m0 s m0 (NMAX + 2 - m0)) (m0 + 1) (k + 1) = _
      rw [ih (runInner c m0 s m0 (NMAX + 2 - m0)) (m0 + 1)]
      have h : m0 + 1 + k = m0 + (k + 1) := by omega
      rw [h]
      rfl

/-! Helper lemmas: partial sums of the traversal. -/

lemma upTo_succ (g : ℕ → ℕ → ℚ) (m n : ℕ) (h : m ≤ n) :
    upTo g m (n + 1) = upTo g m n + g m (n + 1) := by
  unfold upTo
  have h1 : n + 1 + 1 - m = (n + 1 - m) + 1 := by omega
  rw [h1, List.range'_1_concat]
  have h2 : m + (n + 1 - m) = n + 1 := by omega
  rw [h2, List.map_append, List.sum_append]
  simp [add_assoc]

lemma upTo_rowEnd (g : ℕ → ℕ → ℚ) (m : ℕ) :
    upTo g m (NMAX + 1) = ((List.range (m + 1)).map (rowSum g)).sum := by
  unfold upTo
  rw [List.range_succ, List.map_append, List.sum_append]
  simp [rowSum]

lemma upTo_diagStep (g : ℕ → ℕ → ℚ) (m : ℕ) :
    upTo g (m + 1) (m + 1) = upTo g m (NMAX + 1) + g (m + 1) (m + 1) := by
  rw [upTo_rowEnd]
  unfold upTo
  simp

lemma upTo_start (g : ℕ → ℕ → ℚ) : upTo g 0 0 = g 0 0 := by
  unfold upTo
  simp

lemma upTo_total (g : ℕ → ℕ → ℚ) :
    upTo g (NMAX + 1) (NMAX + 1) = totalSum g := by
  have h := upTo_rowEnd g (NMAX + 1)
  unfold upTo at h ⊢
  unfold totalSum
  have h1 : NMAX + 1 + 1 - (NMAX + 1) = 1 := by omega
  rw [h1] at h ⊢
  exact h

lemma VW_diag1 (c : Ctx) (m : ℕ) :
    (VW c (m + 1) (m + 1)).1
      = (2 * ((m : ℚ) + 1) - 1) * (c.a * (VW c m m).1 - c.b * (VW c m m).2) := by
  rw [VW_diag c m]

lemma VW_diag2 (c : Ctx) (m : ℕ) :
    (VW c (m + 1) (m + 1)).2
      = (2 * ((m : ℚ) + 1) - 1) * (c.a * (VW c m m).2 + c.b * (VW c m m).1) := by
  rw [VW_diag c m]

lemma VW_vert1 (c : Ctx) (n m : ℕ) (h : m < n) :
    (VW c n m).1
      = ((2 * (n : ℚ) - 1) * c.f * (VW c (n - 1) m).1
            - ((n : ℚ) + (m : ℚ) - 1) * c.g
                * (if m + 2 ≤ n then (VW c (n - 2) m).1 else 0))
          / ((n : ℚ) - (m : ℚ)) := by
  rw [VW_vert c n m h]

lemma VW_vert2 (c : Ctx) (n m : ℕ) (h : m < n) :
    (VW c n m).2
      = ((2 * (n : ℚ) - 1) * c.f * (VW c (n - 1) m).2
            - ((n : ℚ) + (m : ℚ) - 1) * c.g
                * (if m + 2 ≤ n then (VW c (n - 2) m).2 else 0))
          / ((n : ℚ) - (m : ℚ)) := by
  rw [VW_vert c n m h]

/-! Helper lemmas: evaluating the recurrence part of the body on the two
kinds of steps. -/

lemma bodyV_vert_eq (c : Ctx) (m n : ℕ) (s : LoopState) (hne : ¬ (n = m)) :
    bodyV c m n s
      = { s with
          Vnm := ((2 * (n : ℚ) - 1) * c.f * s.Vnm
                    - ((n : ℚ) + (m : ℚ) - 1) * c.g * s.Vprev)
                  * (1 / ((n : ℚ) - (m : ℚ)))
          Vprev := s.Vnm
          Wnm := ((2 * (n : ℚ) - 1) * c.f * s.Wnm
                    - ((n : ℚ) + (m : ℚ) - 1) * c.g * s.Wprev)
                  * (1 / ((n : ℚ) - (m : ℚ)))
          Wprev := s.Wnm } := by
  unfold bodyV
  rw [if_neg hne]

lemma bodyV_diag_eq (c : Ctx) (m : ℕ) (s : LoopState) :
    bodyV c (m + 1) (m + 1) s
      = { s with
          Vtop := (2 * ((m + 1 : ℕ) : ℚ) - 1) * (c.a * s.Vtop - c.b * s.Wtop)
          Wtop := (2 * ((m + 1 : ℕ) : ℚ) - 1) * (c.a * s.Wtop + c.b * s.Vtop)
          Vprev := 0
          Wprev := 0
          Vnm := (2 * ((m + 1 : ℕ) : ℚ) - 1) * (c.a * s.Vtop - c.b * s.Wtop)
          Wnm := (2 * ((m + 1 : ℕ) : ℚ) - 1) * (c.a * s.Wtop + c.b * s.Vtop) } := by
  unfold bodyV
  rw [if_pos rfl, if_pos (Nat.succ_ne_zero m)]

/-! Helper lemmas: one step of the loop preserves the invariant. -/

lemma stateInv_step_vert (c : Ctx) (m n : ℕ) (s : LoopState) (hmn : m ≤ n)
    (hInv : StateInv c m n s) :
    StateInv c m (n + 1) (stepBody c m (n + 1) s) := by
  obtain ⟨hVt, hWt, hV, hW, hVp, hWp⟩ := hInv
  have hne : ¬ (n + 1 = m) := by omega
  have hsub2 : n + 1 - 2 = n - 1 := by omega
  unfold stepBody
  rw [bodyV_vert_eq c m (n + 1) s hne]
  refine ⟨?_, ?_, ?_, ?_, ?_, ?_⟩
  · rw [bodyAcc_Vtop]
    exact hVt
  · rw [bodyAcc_Wtop]
    exact hWt
  · rw [bodyAcc_Vnm]
    show ((2 * ((n + 1 : ℕ) : ℚ) - 1) * c.f * s.Vnm
            - (((n + 1 : ℕ) : ℚ) + (m : ℚ) - 1) * c.g * s.Vprev)
          * (1 / (((n + 1 : ℕ) : ℚ) - (m : ℚ))) = (VW c (n + 1) m).1
    rw [VW_vert1 c (n + 1) m (by omega), Nat.add_sub_cancel, hsub2, hV, hVp]
    rcases Nat.eq_or_lt_of_le hmn with heq | hlt
    · subst heq
      have hcond : ¬ (m + 2 ≤ m + 1) := by omega
      rw [if_pos rfl, if_neg hcond]
      push_cast
      ring
    · have hcond : m + 2 ≤ n + 1 := by omega
      have hne2 : ¬ (n = m) := by omega
      rw [if_neg hne2, if_pos hcond]
      push_cast
      ring
  · rw [bodyAcc_Wnm]
    show ((2 * ((n + 1 : ℕ) : ℚ) - 1) * c.f * s.Wnm
            - (((n + 1 : ℕ) : ℚ) + (m : ℚ) - 1) * c.g * s.Wprev)
          * (1 / (((n + 1 : ℕ) : ℚ) - (m : ℚ))) = (VW c (n + 1) m).2
    rw [VW_vert2 c (n + 1) m (by omega), Nat.add_sub_cancel, hsub2, hW, hWp]
    rcases Nat.eq_or_lt_of_le hmn with heq | hlt
    · subst heq
      have hcond : ¬ (m + 2 ≤ m + 1) := by omega
      rw [if_pos rfl, if_neg hcond]
      push_cast
      ring
    · have hcond : m + 2 ≤ n + 1 := by omega
      have hne2 : ¬ (n = m) := by omega
      rw [if_neg hne2, if_pos hcond]
      push_cast
      ring
  · rw [bodyAcc_Vprev]
    show s.Vnm = if n + 1 = m then 0 else (VW c (n + 1 - 1) m).1
    rw [if_neg hne, Nat.add_sub_cancel]
    exact hV
  · rw [bodyAcc_Wprev]
    show s.Wnm = if n + 1 = m then 0 else (VW c (n + 1 - 1) m).2
    rw [if_neg hne, Nat.add_sub_cancel]
    exact hW

lemma stateInv_step_diag (c : Ctx) (m n : ℕ) (s : LoopState)
    (hInv : StateInv c m n s) :
    StateInv c (m + 1) (m + 1) (stepBody c (m + 1) (m + 1) s) := by
  obtain ⟨hVt, hWt, hV, hW, hVp, hWp⟩ := hInv
  unfold stepBody
  rw [bodyV_diag_eq c m s]
  refine ⟨?_, ?_, ?_, ?_, ?_, ?_⟩
  · rw [bodyAcc_Vtop]
    show (2 * ((m + 1 : ℕ) : ℚ) - 1) * (c.a * s.Vtop - c.b * s.Wtop)
        = (VW c (m + 1) (m + 1)).1
    rw [VW_diag1 c m, hVt, hWt]
    push_cast
    ring
  · rw [bodyAcc_Wtop]
    show (2 * ((m + 1 : ℕ) : ℚ) - 1) * (c.a * s.Wtop + c.b * s.Vtop)
        = (VW c (m + 1) (m + 1)).2
    rw [VW_diag2 c m, hVt, hWt]
    push_cast
    ring
  · rw [bodyAcc_Vnm]
    show (2 * ((m + 1 : ℕ) : ℚ) - 1) * (c.a * s.Vtop - c.b * s.Wtop)
        = (VW c (m + 1) (m + 1)).1
    rw [VW_diag1 c m, hVt, hWt]
    push_cast
    ring
  · rw [bodyAcc_Wnm]
    show (2 * ((m + 1 : ℕ) : ℚ) - 1) * (c.a * s.Wtop + c.b * s.Vtop)
        = (VW c (m + 1) (m + 1)).2
    rw [VW_diag2 c m, hVt, hWt]
    push_cast
    ring
  · rw [bodyAcc_Vprev]
    show (0 : ℚ) = if m + 1 = m + 1 then 0 else (VW c (m + 1 - 1) (m + 1)).1
    rw [if_pos rfl]
  · rw [bodyAcc_Wprev]
    show (0 : ℚ) = if m + 1 = m + 1 then 0 else (VW c (m + 1 - 1) (m + 1)).2
    rw [if_pos rfl]

lemma inv_step_vert (c : Ctx) (m n : ℕ) (s : LoopState) (hmn : m ≤ n)
    (h : Inv c m n s) : Inv c m (n + 1) (stepBody c m (n + 1) s) := by
  obtain ⟨hSI, hpx, hpy, hpz⟩ := h
  have hSI2 := stateInv_step_vert c m n s hmn hSI
  have hv : (bodyV c m (n + 1) s).Vnm = (VW c (n + 1) m).1 := by
    have h3 := hSI2.2.2.1
    unfold stepBody at h3
    rwa [bodyAcc_Vnm] at h3
  have hw : (bodyV c m (n + 1) s).Wnm = (VW c (n + 1) m).2 := by
    have h3 := hSI2.2.2.2.1
    unfold stepBody at h3
    rwa [bodyAcc_Wnm] at h3
  refine ⟨hSI2, ?_, ?_, ?_⟩
  · unfold stepBody
    rw [bodyAcc_px, bodyV_px, hv, hw, hpx, upTo_succ _ _ _ hmn]
    rfl
  · unfold stepBody
    rw [bodyAcc_py, bodyV_py, hv, hw, hpy, upTo_succ _ _ _ hmn]
    rfl
  · unfold stepBody
    rw [bodyAcc_pz, bodyV_pz, hv, hw, hpz, upTo_succ _ _ _ hmn]
    rfl

lemma inv_step_diag (c : Ctx) (m : ℕ) (s : LoopState)
    (h : Inv c m (NMAX + 1) s) : Inv c (m + 1) (m + 1) (stepBody c (m + 1) (m + 1) s) := by
  obtain ⟨hSI, hpx, hpy, hpz⟩ := h
  have hSI2 := stateInv_step_diag c m (NMAX + 1) s hSI
  have hv : (bodyV c (m + 1) (m + 1) s).Vnm = (VW c (m + 1) (m + 1)).1 := by
    have h3 := hSI2.2.2.1
    unfold stepBody at h3
    rwa [bodyAcc_Vnm] at h3
  have hw : (bodyV c (m + 1) (m + 1) s).Wnm = (VW c (m + 1) (m + 1)).2 := by
    have h3 := hSI2.2.2.2.1
    unfold stepBody at h3
    rwa [bodyAcc_Wnm] at h3
  refine ⟨hSI2, ?_, ?_, ?_⟩
  · unfold stepBody
    rw [bodyAcc_px, bodyV_px, hv, hw, hpx, upTo_diagStep]
    rfl
  · unfold stepBody
    rw [bodyAcc_py, bodyV_py, hv, hw, hpy, upTo_diagStep]
    rfl
  · unfold stepBody
    rw [bodyAcc_pz, bodyV_pz, hv, hw, hpz, upTo_diagStep]
    rfl

/-! Helper lemmas: the invariant holds at every visited pair. -/

lemma contrib_at_origin (c : Ctx) :
    pxContrib c 0 0 = 0 ∧ pyContrib c 0 0 = 0 ∧ pzContrib c 0 0 = 0 := by
  refine ⟨?_, ?_, ?_⟩ <;>
    norm_num [pxContrib, pyContrib, pzContrib, pxTermAt, pyTermAt, pzTermAt]

lemma inv_start (c : Ctx) : Inv c 0 0 (stateAfter c 0 0) := by
  have hs : stateAfter c 0 0 = initState c := rfl
  rw [hs]
  obtain ⟨hx, hy, hz⟩ := contrib_at_origin c
  refine ⟨⟨?_, ?_, ?_, ?_, ?_, ?_⟩, ?_, ?_, ?_⟩
  · rw [VW_zero]
    rfl
  · rw [VW_zero]
    rfl
  · rw [VW_zero]
    rfl
  · rw [VW_zero]
    rfl
  · rw [if_pos rfl]
    rfl
  · rw [if_pos rfl]
    rfl
  · rw [upTo_start, hx]
    rfl
  · rw [upTo_start, hy]
    rfl
  · rw [upTo_start, hz]
    rfl

lemma inv_row (c : Ctx) (m : ℕ) (h : Inv c m m (stateAfter c m m)) :
    ∀ k, Inv c m (m + k) (stateAfter c m (m + k)) := by
  intro k
  induction k with
  | zero => exact h
  | succ k ih =>
      have h1 : m + (k + 1) + 1 - m = (k + 1) + 1 := by omega
      have h2 : m + k + 1 - m = k + 1 := by omega
      have h3 : m + (k + 1) = (m + k) + 1 := by omega
      have h4 : stateAfter c m (m + (k + 1))
          = stepBody c m (m + k + 1) (stateAfter c m (m + k)) := by
        unfold stateAfter
        rw [h1, h2, runInner_succ]
        have h5 : m + (k + 1) = m + k + 1 := by omega
        rw [h5]
      rw [h3] at h4
      rw [h3, h4]
      exact inv_step_vert c m (m + k) (stateAfter c m (m + k)) (by omega) ih

lemma inv_diag_all (c : Ctx) : ∀ m, m ≤ NMAX + 1 → Inv c m m (stateAfter c m m) := by
  intro m
  induction m with
  | zero => intro _; exact inv_start c
  | succ m ih =>
      intro hm
      have hmN : m ≤ NMAX := by
        have hN : NMAX + 1 + 1 = NMAX + 2 := rfl
        omega
      have hrow := inv_row c m (ih (by omega)) (NMAX + 1 - m)
      have h4 : stateAfter c (m + 1) (m + 1)
          = stepBody c (m + 1) (m + 1) (stateAfter c m (m + (NMAX + 1 - m))) := by
        unfold stateAfter
        have h1 : m + 1 + 1 - (m + 1) = 1 := by omega
        have h2 : m + (NMAX + 1 - m) + 1 - m = NMAX + 2 - m := by omega
        rw [h1, h2]
        rw [runRows_succ c m (initState c) 0]
        have h3 : (0 : ℕ) + m = m := by omega
        rw [h3]
        rfl
      rw [h4]
      have h6 : m + (NMAX + 1 - m) = NMAX + 1 := by omega
      rw [h6] at hrow
      have h7 : stateAfter c m (m + (NMAX + 1 - m)) = stateAfter c m (NMAX + 1) := by
        rw [h6]
      rw [h7]
      exact inv_step_diag c m (stateAfter c m (NMAX + 1)) hrow

lemma inv_all (c : Ctx) (m n : ℕ) (hmn : m ≤ n) (hn : n ≤ NMAX + 1) :
    Inv c m n (stateAfter c m n) := by
  have h1 := inv_row c m (inv_diag_all c m (le_trans hmn hn)) (n - m)
  have h2 : m + (n - m) = n := by omega
  rw [h2] at h1
  exact h1

/-! Helper lemmas: the final loop state. -/

lemma final_state (c : Ctx) :
    runRows c (initState c) 0 (NMAX + 2) = stateAfter c (NMAX + 1) (NMAX + 1) := by
  unfold stateAfter
  have h0 : NMAX + 2 = (NMAX + 1) + 1 := rfl
  rw [h0, runRows_succ c (NMAX + 1) (initState c) 0]
  have h1 : (0 : ℕ) + (NMAX + 1) = NMAX + 1 := by omega
  rw [h1]

lemma final_acc (c : Ctx) :
    (runRows c (initState c) 0 (NMAX + 2)).px = totalSum (pxContrib c)
      ∧ (runRows c (initState c) 0 (NMAX + 2)).py = totalSum (pyContrib c)
      ∧ (runRows c (initState c) 0 (NMAX + 2)).pz = totalSum (pzContrib c) := by
  rw [final_state]
  obtain ⟨_, hx, hy, hz⟩ := inv_all c (NMAX + 1) (NMAX + 1) (le_refl _) (le_refl _)
  exact ⟨by rw [hx, upTo_total], by rw [hy, upTo_total], by rw [hz, upTo_total]⟩

/-- Claim C1: for every time, position and coefficient store, `GeoMag`
returns `(-px*1e-9, -py*1e-9, -pz*1e-9)` where `px`, `py`, `pz` are the
sums, over the traversal of `m` from `0` to `NMAX+1` and `n` from `m` to
`NMAX+1`, of the four guarded contribution rules (raise-order with weight
`(1/2)(n-m)(n-m-1)`, lower-order with weight `1/2`, the order-1 rule with
the zonal cosine coefficient, and the vertical rule with weight `n-m`),
each evaluated with the time-corrected coefficients at degree `n-1` and
the recurrence values `V(n,m)`, `W(n,m)`. -/
theorem C1_geoMag_result_eq_neg_gradient_sums
    (dyear : ℚ) (position_itrs : Vector) (WMM : ConstModel) (sqrtf : ℚ → ℚ) :
    GeoMag dyear position_itrs WMM sqrtf
      = { x := -(totalSum (pxContrib (mkCtx dyear position_itrs WMM sqrtf)))
                * (1 / 1000000000)
          y := -(totalSum (pyContrib (mkCtx dyear position_itrs WMM sqrtf)))
                * (1 / 1000000000)
          z := -(totalSum (pzContrib (mkCtx dyear position_itrs WMM sqrtf)))
                * (1 / 1000000000) } := by
  obtain ⟨hx, hy, hz⟩ := final_acc (mkCtx dyear position_itrs WMM sqrtf)
  simp only [GeoMag]
  rw [hx, hy, hz]

/-- Claim C3: the three-scalar streaming loop of `GeoMag` computes, at
every visited pair `(n, m)`, exactly the values `V(n,m)` and `W(n,m)` of
the full recurrence `VW` (seed, diagonal step, vertical step); that is,
the streaming implementation refines the full-table evaluation. -/
theorem C3_streaming_matches_recurrence
    (dyear : ℚ) (position_itrs : Vector) (WMM : ConstModel) (sqrtf : ℚ → ℚ)
    (m n : ℕ) (hmn : m ≤ n) (hn : n ≤ NMAX + 1) :
    (stateAfter (mkCtx dyear position_itrs WMM sqrtf) m n).Vnm
        = (VW (mkCtx dyear position_itrs WMM sqrtf) n m).1
      ∧ (stateAfter (mkCtx dyear position_itrs WMM sqrtf) m n).Wnm
        = (VW (mkCtx dyear position_itrs WMM sqrtf) n m).2 := by
  obtain ⟨⟨_, _, hV, hW, _, _⟩, _, _, _⟩ :=
    inv_all (mkCtx dyear position_itrs WMM sqrtf) m n hmn hn
  exact ⟨hV, hW⟩

/-- Witness for C3 at a concrete input. -/
theorem C3_streaming_matches_recurrence_witness :
    (0 : ℕ) ≤ 2 ∧ (2 : ℕ) ≤ NMAX + 1
      ∧ ((stateAfter (mkCtx 2020 testPos testModel idq) 0 2).Vnm
          = (VW (mkCtx 2020 testPos testModel idq) 2 0).1
        ∧ (stateAfter (mkCtx 2020 testPos testModel idq) 0 2).Wnm
          = (VW (mkCtx 2020 testPos testModel idq) 2 0).2) :=
  ⟨by decide, by decide,
    C3_streaming_matches_recurrence 2020 testPos testModel idq 0 2
      (by decide) (by decide)⟩

/-! Helper lemmas: the loops as folds over the fixed traversal list. -/

lemma runInner_eq_foldl (c : Ctx) (m : ℕ) :
    ∀ (k n0 : ℕ) (s : LoopState),
      runInner c m s n0 k
        = (List.range' n0 k).foldl (fun s n => stepBody c m n s) s := by
  intro k
  induction k with
  | zero => intro n0 s; rfl
  | succ k ih =>
      intro n0 s
      rw [List.range'_succ, List.foldl_cons]
      exact ih (n0 + 1) (stepBody c m n0 s)

lemma runRows_eq_foldl (c : Ctx) :
    ∀ (k m0 : ℕ) (s : LoopState),
      runRows c s m0 k
        = (List.range' m0 k).foldl
            (fun s m => runInner c m s m (NMAX + 2 - m)) s := by
  intro k
  induction k with
  | zero => intro m0 s; rfl
  | succ k ih =>
      intro m0 s
      rw [List.range'_succ, List.foldl_cons]
      exact ih (m0 + 1) (runInner c m0 s m0 (NMAX + 2 - m0))

lemma run_eq_traversal_foldl (c : Ctx) (s0 : LoopState) :
    runRows c s0 0 (NMAX + 2)
      = traversal.foldl (fun s p => stepBody c p.1 p.2 s) s0 := by
  rw [traversal, List.flatMap_def, List.foldl_flatten, List.foldl_map]
  rw [runRows_eq_foldl, ← List.range_eq_range']
  congr 1
  funext s m
  rw [List.foldl_map, runInner_eq_foldl]

/-- Claim C9: `GeoMag` is a fold of the loop body over the fixed pair list
`traversal`, which depends only on `NMAX` and not on the position, time or
coefficient values, and which has exactly `(NMAX+2)*(NMAX+3)/2 = 105`
elements; hence the double loop always performs that fixed number of
iterations. -/
theorem C9_fixed_iteration_count
    (dyear : ℚ) (position_itrs : Vector) (WMM : ConstModel) (sqrtf : ℚ → ℚ) :
    GeoMag dyear position_itrs WMM sqrtf
      = { x := -(traversal.foldl
                  (fun s p => stepBody (mkCtx dyear position_itrs WMM sqrtf) p.1 p.2 s)
                  (initState (mkCtx dyear position_itrs WMM sqrtf))).px
                * (1 / 1000000000)
          y := -(traversal.foldl
                  (fun s p => stepBody (mkCtx dyear position_itrs WMM sqrtf) p.1 p.2 s)
                  (initState (mkCtx dyear position_itrs WMM sqrtf))).py
                * (1 / 1000000000)
          z := -(traversal.foldl
                  (fun s p => stepBody (mkCtx dyear position_itrs WMM sqrtf) p.1 p.2 s)
                  (initState (mkCtx dyear position_itrs WMM sqrtf))).pz
                * (1 / 1000000000) }
      ∧ traversal.length = (NMAX + 2) * (NMAX + 3) / 2 := by
  constructor
  · simp only [GeoMag]
    rw [run_eq_traversal_foldl]
  · decide

/-- Claim C8: `GeoMag` is deterministic; its output depends on nothing but
its arguments, so any two invocations with identical inputs produce
identical results. -/
theorem C8_deterministic
    (dyear dyear2 : ℚ) (p p2 : Vector) (w w2 : ConstModel) (sq sq2 : ℚ → ℚ)
    (ht : dyear = dyear2) (hp : p = p2) (hw : w = w2) (hsq : sq = sq2) :
    GeoMag dyear p w sq = GeoMag dyear2 p2 w2 sq2 := by
  rw [ht, hp, hw, hsq]

/-- Witness for C8 at a concrete input. -/
theorem C8_deterministic_witness :
    GeoMag 2020 testPos testModel idq = GeoMag 2020 testPos testModel idq :=
  C8_deterministic 2020 2020 testPos testPos testModel testModel idq idq
    rfl rfl rfl rfl

/-! Helper lemmas: finite checks over the traversal and the packing
domain. -/

lemma lookups_safe_all :
    ∀ p ∈ traversal, ∀ q ∈ lookupsAt p.1 p.2,
      q.2 ≤ q.1 ∧ q.1 ≤ NMAX ∧ coefIndex q.1 q.2 < NUMCOF := by
  decide

lemma domPairs_map_nodup :
    (domPairs.map (fun p => coefIndex p.1 p.2)).Nodup := by
  decide

lemma coefIndex_lt_all : ∀ p ∈ domPairs, coefIndex p.1 p.2 < NUMCOF := by
  decide

lemma mem_domPairs (n m : ℕ) (h1 : m ≤ n) (h2 : n ≤ NMAX) :
    (n, m) ∈ domPairs := by
  have hN : NMAX = 12 := rfl
  unfold domPairs
  rw [List.mem_flatMap]
  refine ⟨m, ?_, ?_⟩
  · rw [List.mem_range]
    omega
  · rw [List.mem_map]
    refine ⟨n, ?_, rfl⟩
    rw [List.mem_range'_1]
    omega

lemma coefIndex_lt (n m : ℕ) (h1 : m ≤ n) (h2 : n ≤ NMAX) :
    coefIndex n m < NUMCOF :=
  coefIndex_lt_all (n, m) (mem_domPairs n m h1 h2)

/-- Claim C2: every coefficient lookup performed during the accumulation
(the four guarded reads, with `n` up to `NMAX+1` on the traversal) has its
degree/order pair inside the valid packing domain `0 ≤ order ≤ degree ≤
NMAX`, and its triangular index below the table length `NUMCOF`, so no
array access is out of bounds. -/
theorem C2_lookups_within_domain
    (p : ℕ × ℕ) (hp : p ∈ traversal)
    (q : ℕ × ℕ) (hq : q ∈ lookupsAt p.1 p.2) :
    q.2 ≤ q.1 ∧ q.1 ≤ NMAX ∧ coefIndex q.1 q.2 < NUMCOF :=
  lookups_safe_all p hp q hq

/-- Witness for C2 at the concrete pair `(m, n) = (0, 2)`, whose vertical
rule reads the coefficient at degree `1`, order `0`. -/
theorem C2_lookups_within_domain_witness :
    ((0, 2) : ℕ × ℕ) ∈ traversal
      ∧ ((1, 0) : ℕ × ℕ) ∈ lookupsAt 0 2
      ∧ ((1 : ℕ) ≤ 1 ∧ (1 : ℕ) ≤ NMAX ∧ coefIndex 1 0 < NUMCOF) := by
  refine ⟨by decide, by decide, ?_⟩
  have h := C2_lookups_within_domain (0, 2) (by decide) (1, 0) (by decide)
  exact ⟨by decide, h.2.1, h.2.2⟩

/-- Claim C4: for all pairs in the domain `0 ≤ m ≤ n ≤ NMAX`, the
triangular index `coefIndex n m = m(2 NMAX - m + 1)/2 + n` lies below
`(NMAX+1)(NMAX+2)/2`, the map is injective on the domain (distinct pairs
never collide), and it is onto the index range (no wasted slots), hence a
bijection. -/
theorem C4_index_bijection
    (n m n2 m2 : ℕ) (h1 : m ≤ n) (h2 : n ≤ NMAX) (h3 : m2 ≤ n2)
    (h4 : n2 ≤ NMAX) :
    coefIndex n m < NUMCOF
      ∧ (coefIndex n m = coefIndex n2 m2 → n = n2 ∧ m = m2)
      ∧ (∀ i < NUMCOF, ∃ q ∈ domPairs, coefIndex q.1 q.2 = i) := by
  refine ⟨coefIndex_lt n m h1 h2, ?_, by decide⟩
  intro he
  have hpair := List.inj_on_of_nodup_map domPairs_map_nodup
    (mem_domPairs n m h1 h2) (mem_domPairs n2 m2 h3 h4) he
  exact ⟨congrArg Prod.fst hpair, congrArg Prod.snd hpair⟩

/-- Witness for C4 at concrete pairs. -/
theorem C4_index_bijection_witness :
    ((1 : ℕ) ≤ 2 ∧ (2 : ℕ) ≤ NMAX ∧ (0 : ℕ) ≤ 1 ∧ (1 : ℕ) ≤ NMAX)
      ∧ (coefIndex 2 1 < NUMCOF
          ∧ (coefIndex 2 1 = coefIndex 1 0 → 2 = 1 ∧ 1 = 0)
          ∧ (∀ i < NUMCOF, ∃ q ∈ domPairs, coefIndex q.1 q.2 = i)) :=
  ⟨by decide,
    C4_index_bijection 2 1 1 0 (by decide) (by decide) (by decide) (by decide)⟩

/-- Counterexample to claim C6 as stated: it is not true that at every
visited pair at most one of the four contribution guards holds; at
`(m, n) = (0, 2)` both the raise-order guard and the vertical guard are
satisfied. -/
theorem C6_rules_disjoint_counterexample :
    ¬ (∀ p ∈ traversal, guardCount p.1 p.2 ≤ 1) := by
  decide

/-- Claim C6 (amended): the four contribution rules are not pairwise
disjoint; at a visited pair up to three of the four guards can hold
simultaneously, and among them only the lower-order rule
(`n ≥ 2 ∧ m ≥ 2`) and the order-1 rule (`m = 1 ∧ n ≥ 2`) are mutually
exclusive. -/
theorem C6_rules_overlap_amended (p : ℕ × ℕ) (hp : p ∈ traversal) :
    guardCount p.1 p.2 ≤ 3
      ∧ ¬ ((2 ≤ p.2 ∧ 2 ≤ p.1) ∧ (p.1 = 1 ∧ 2 ≤ p.2)) := by
  have h : ∀ q ∈ traversal,
      guardCount q.1 q.2 ≤ 3
        ∧ ¬ ((2 ≤ q.2 ∧ 2 ≤ q.1) ∧ (q.1 = 1 ∧ 2 ≤ q.2)) := by decide
  exact h p hp

/-- Witness for the amended C6 at the concrete pair `(m, n) = (2, 4)`. -/
theorem C6_rules_overlap_amended_witness :
    ((2, 4) : ℕ × ℕ) ∈ traversal
      ∧ (guardCount 2 4 ≤ 3 ∧ ¬ ((2 ≤ 4 ∧ 2 ≤ 2) ∧ (2 = 1 ∧ 2 ≤ 4))) :=
  ⟨by decide, C6_rules_overlap_amended (2, 4) (by decide)⟩

/-! Helper lemmas: the loop body depends on the model only through the
guarded coefficient lookups. -/

lemma loopState_eq_of_fields (s1 s2 : LoopState)
    (h1 : s1.Vtop = s2.Vtop) (h2 : s1.Wtop = s2.Wtop)
    (h3 : s1.Vprev = s2.Vprev) (h4 : s1.Wprev = s2.Wprev)
    (h5 : s1.Vnm = s2.Vnm) (h6 : s1.Wnm = s2.Wnm)
    (h7 : s1.px = s2.px) (h8 : s1.py = s2.py) (h9 : s1.pz = s2.pz) :
    s1 = s2 := by
  cases s1
  cases s2
  simp_all

lemma pxTermAt_model_congr (c : Ctx) (w2 : ConstModel) (m n : ℕ) (v w : ℚ)
    (h : ∀ q ∈ lookupsAt m n,
      c.model.C q.1 q.2 c.dyear = w2.C q.1 q.2 c.dyear
        ∧ c.model.S q.1 q.2 c.dyear = w2.S q.1 q.2 c.dyear) :
    pxTermAt { c with model := w2 } m n v w = pxTermAt c m n v w := by
  unfold pxTermAt
  dsimp only
  congr 1
  congr 1
  · by_cases g1 : m < NMAX ∧ m + 2 ≤ n
    · have hmem : (n - 1, m + 1) ∈ lookupsAt m n := by
        unfold lookupsAt
        rw [if_pos g1]
        simp
      obtain ⟨hC, hS⟩ := h _ hmem
      rw [if_pos g1, if_pos g1, hC, hS]
    · rw [if_neg g1, if_neg g1]
  · by_cases g2 : 2 ≤ n ∧ 2 ≤ m
    · have hmem : (n - 1, m - 1) ∈ lookupsAt m n := by
        unfold lookupsAt
        rw [if_pos g2]
        simp
      obtain ⟨hC, hS⟩ := h _ hmem
      rw [if_pos g2, if_pos g2, hC, hS]
    · rw [if_neg g2, if_neg g2]
  · by_cases g3 : m = 1 ∧ 2 ≤ n
    · have hmem : (n - 1, 0) ∈ lookupsAt m n := by
        unfold lookupsAt
        rw [if_pos g3]
        simp
      obtain ⟨hC, _⟩ := h _ hmem
      rw [if_pos g3, if_pos g3, hC]
    · rw [if_neg g3, if_neg g3]

lemma pyTermAt_model_congr (c : Ctx) (w2 : ConstModel) (m n : ℕ) (v w : ℚ)
    (h : ∀ q ∈ lookupsAt m n,
      c.model.C q.1 q.2 c.dyear = w2.C q.1 q.2 c.dyear
        ∧ c.model.S q.1 q.2 c.dyear = w2.S q.1 q.2 c.dyear) :
    pyTermAt { c with model := w2 } m n v w = pyTermAt c m n v w := by
  unfold pyTermAt
  dsimp only
  congr 1
  congr 1
  · by_cases g1 : m < NMAX ∧ m + 2 ≤ n
    · have hmem : (n - 1, m + 1) ∈ lookupsAt m n := by
        unfold lookupsAt
        rw [if_pos g1]
        simp
      obtain ⟨hC, hS⟩ := h _ hmem
      rw [if_pos g1, if_pos g1, hC, hS]
    · rw [if_neg g1, if_neg g1]
  · by_cases g2 : 2 ≤ n ∧ 2 ≤ m
    · have hmem : (n - 1, m - 1) ∈ lookupsAt m n := by
        unfold lookupsAt
        rw [if_pos g2]
        simp
      obtain ⟨hC, hS⟩ := h _ hmem
      rw [if_pos g2, if_pos g2, hC, hS]
    · rw [if_neg g2, if_neg g2]
  · by_cases g3 : m = 1 ∧ 2 ≤ n
    · have hmem : (n - 1, 0) ∈ lookupsAt m n := by
        unfold lookupsAt
        rw [if_pos g3]
        simp
      obtain ⟨hC, _⟩ := h _ hmem
      rw [if_pos g3, if_pos g3, hC]
    · rw [if_neg g3, if_neg g3]

lemma pzTermAt_model_congr (c : Ctx) (w2 : ConstModel) (m n : ℕ) (v w : ℚ)
    (h : ∀ q ∈ lookupsAt m n,
      c.model.C q.1 q.2 c.dyear = w2.C q.1 q.2 c.dyear
        ∧ c.model.S q.1 q.2 c.dyear = w2.S q.1 q.2 c.dyear) :
    pzTermAt { c with model := w2 } m n v w = pzTermAt c m n v w := by
  unfold pzTermAt
  dsimp only
  by_cases g4 : 2 ≤ n ∧ m < n
  · have hmem : (n - 1, m) ∈ lookupsAt m n := by
      unfold lookupsAt
      rw [if_pos g4]
      simp
    obtain ⟨hC, hS⟩ := h _ hmem
    rw [if_pos g4, if_pos g4, hC, hS]
  · rw [if_neg g4, if_neg g4]

lemma stepBody_model_congr (c : Ctx) (w2 : ConstModel) (m n : ℕ)
    (s : LoopState)
    (h : ∀ q ∈ lookupsAt m n,
      c.model.C q.1 q.2 c.dyear = w2.C q.1 q.2 c.dyear
        ∧ c.model.S q.1 q.2 c.dyear = w2.S q.1 q.2 c.dyear) :
    stepBody { c with model := w2 } m n s = stepBody c m n s := by
  unfold stepBody
  have hbv : bodyV { c with model := w2 } m n s = bodyV c m n s := rfl
  rw [hbv]
  apply loopState_eq_of_fields
  · rw [bodyAcc_Vtop, bodyAcc_Vtop]
  · rw [bodyAcc_Wtop, bodyAcc_Wtop]
  · rw [bodyAcc_Vprev, bodyAcc_Vprev]
  · rw [bodyAcc_Wprev, bodyAcc_Wprev]
  · rw [bodyAcc_Vnm, bodyAcc_Vnm]
  · rw [bodyAcc_Wnm, bodyAcc_Wnm]
  · rw [bodyAcc_px, bodyAcc_px, pxTermAt_model_congr c w2 m n _ _ h]
  · rw [bodyAcc_py, bodyAcc_py, pyTermAt_model_congr c w2 m n _ _ h]
  · rw [bodyAcc_pz, bodyAcc_pz, pzTermAt_model_congr c w2 m n _ _ h]

lemma geoMag_model_congr (dyear : ℚ) (position_itrs : Vector)
    (w w2 : ConstModel) (sqrtf : ℚ → ℚ)
    (h : ∀ p ∈ traversal, ∀ q ∈ lookupsAt p.1 p.2,
      w.C q.1 q.2 dyear = w2.C q.1 q.2 dyear
        ∧ w.S q.1 q.2 dyear = w2.S q.1 q.2 dyear) :
    GeoMag dyear position_itrs w sqrtf = GeoMag dyear position_itrs w2 sqrtf := by
  have hrun : runRows (mkCtx dyear position_itrs w2 sqrtf)
        (initState (mkCtx dyear position_itrs w2 sqrtf)) 0 (NMAX + 2)
      = runRows (mkCtx dyear position_itrs w sqrtf)
          (initState (mkCtx dyear position_itrs w sqrtf)) 0 (NMAX + 2) := by
    rw [run_eq_traversal_foldl, run_eq_traversal_foldl]
    have hinit : initState (mkCtx dyear position_itrs w2 sqrtf)
        = initState (mkCtx dyear position_itrs w sqrtf) := rfl
    rw [hinit]
    apply List.foldl_ext
    intro s p hp
    exact stepBody_model_congr (mkCtx dyear position_itrs w sqrtf) w2
      p.1 p.2 s (h p hp)
  simp only [GeoMag]
  rw [hrun]

/-! Helper lemmas: list reads. -/

lemma getD_eq_get (l : List ℚ) (i : ℕ) (h : i < l.length) :
    l.getD i 0 = l.get ⟨i, h⟩ := by
  rw [List.getD_eq_getElem?_getD, List.getElem?_eq_getElem h, Option.getD_some,
    List.get_eq_getElem]

lemma getD_map_zero (l : List ℚ) (i : ℕ) :
    (l.map (fun _ => (0 : ℚ))).getD i 0 = 0 := by
  rw [List.getD_eq_getElem?_getD, List.getElem?_map]
  cases l[i]? <;> rfl

lemma getD_tail_agree (a b : ℚ) (l : List ℚ) :
    ∀ i : ℕ, i ≠ 0 → (a :: l).getD i 0 = (b :: l).getD i 0 := by
  intro i hi
  cases i with
  | zero => exact absurd rfl hi
  | succ k => rfl

/-- A synthetic coefficient store whose four tables have the declared
length `NUMCOF`, used to instantiate the lookup-contract theorem. -/
def testModelFull : ConstModel :=
  { epoch := 2015
    Main_Field_Coeff_C := List.replicate NUMCOF (3 / 2)
    Main_Field_Coeff_S := List.replicate NUMCOF (5 / 4)
    Secular_Var_Coeff_C := List.replicate NUMCOF (7 / 8)
    Secular_Var_Coeff_S := List.replicate NUMCOF (1 / 16) }

/-- Claim C5: for `0 ≤ m ≤ n ≤ NMAX` and any decimal year `t`, the store
lookups return `mainField[index(n,m)] + (t - epoch) *
secularVariation[index(n,m)]` from the corresponding cosine (resp. sine)
tables; with tables of the declared length the read is a true in-bounds
element access. -/
theorem C5_lookup_contract (w : ConstModel) (n m : ℕ) (t : ℚ)
    (h1 : m ≤ n) (h2 : n ≤ NMAX)
    (hlC : w.Main_Field_Coeff_C.length = NUMCOF)
    (hlS : w.Main_Field_Coeff_S.length = NUMCOF)
    (hvC : w.Secular_Var_Coeff_C.length = NUMCOF)
    (hvS : w.Secular_Var_Coeff_S.length = NUMCOF) :
    w.C n m t
        = w.Main_Field_Coeff_C.get
            ⟨coefIndex n m, by rw [hlC]; exact coefIndex_lt n m h1 h2⟩
          + (t - w.epoch) * w.Secular_Var_Coeff_C.get
            ⟨coefIndex n m, by rw [hvC]; exact coefIndex_lt n m h1 h2⟩
      ∧ w.S n m t
        = w.Main_Field_Coeff_S.get
            ⟨coefIndex n m, by rw [hlS]; exact coefIndex_lt n m h1 h2⟩
          + (t - w.epoch) * w.Secular_Var_Coeff_S.get
            ⟨coefIndex n m, by rw [hvS]; exact coefIndex_lt n m h1 h2⟩ := by
  constructor
  · unfold ConstModel.C
    rw [getD_eq_get _ _ (by rw [hlC]; exact coefIndex_lt n m h1 h2),
      getD_eq_get _ _ (by rw [hvC]; exact coefIndex_lt n m h1 h2)]
  · unfold ConstModel.S
    rw [getD_eq_get _ _ (by rw [hlS]; exact coefIndex_lt n m h1 h2),
      getD_eq_get _ _ (by rw [hvS]; exact coefIndex_lt n m h1 h2)]

/-- Witness for C5 at a concrete store and pair. -/
theorem C5_lookup_contract_witness :
    ((0 : ℕ) ≤ 1 ∧ (1 : ℕ) ≤ NMAX
        ∧ testModelFull.Main_Field_Coeff_C.length = NUMCOF)
      ∧ (testModelFull.C 1 0 2016
          = testModelFull.Main_Field_Coeff_C.get ⟨coefIndex 1 0, by decide⟩
            + (2016 - testModelFull.epoch)
              * testModelFull.Secular_Var_Coeff_C.get ⟨coefIndex 1 0, by decide⟩
        ∧ testModelFull.S 1 0 2016
          = testModelFull.Main_Field_Coeff_S.get ⟨coefIndex 1 0, by decide⟩
            + (2016 - testModelFull.epoch)
              * testModelFull.Secular_Var_Coeff_S.get ⟨coefIndex 1 0, by decide⟩) :=
  ⟨⟨by decide, by decide, rfl⟩,
    C5_lookup_contract testModelFull 1 0 2016 (by decide) (by decide)
      rfl rfl rfl rfl⟩

/-- Claim C7: at `t = epoch` the time-corrected lookups reduce to the
main-field entries alone, and consequently `GeoMag` at the epoch computes
the same field as with both secular-variation tables replaced by zeros. -/
theorem C7_epoch_identity (w : ConstModel) (position_itrs : Vector)
    (sqrtf : ℚ → ℚ) (n m : ℕ) (_h1 : m ≤ n) (_h2 : n ≤ NMAX) :
    w.C n m w.epoch = w.Main_Field_Coeff_C.getD (coefIndex n m) 0
      ∧ w.S n m w.epoch = w.Main_Field_Coeff_S.getD (coefIndex n m) 0
      ∧ GeoMag w.epoch position_itrs w sqrtf
          = GeoMag w.epoch position_itrs (zeroSv w) sqrtf := by
  refine ⟨?_, ?_, ?_⟩
  · unfold ConstModel.C
    rw [sub_self]
    ring
  · unfold ConstModel.S
    rw [sub_self]
    ring
  · apply geoMag_model_congr
    intro p _ q _
    constructor
    · show w.C q.1 q.2 w.epoch = (zeroSv w).C q.1 q.2 w.epoch
      simp [ConstModel.C, zeroSv]
    · show w.S q.1 q.2 w.epoch = (zeroSv w).S q.1 q.2 w.epoch
      simp [ConstModel.S, zeroSv]

/-- Witness for C7 at a concrete store, position and pair. -/
theorem C7_epoch_identity_witness :
    ((0 : ℕ) ≤ 1 ∧ (1 : ℕ) ≤ NMAX)
      ∧ (testModel.C 1 0 testModel.epoch
          = testModel.Main_Field_Coeff_C.getD (coefIndex 1 0) 0
        ∧ testModel.S 1 0 testModel.epoch
          = testModel.Main_Field_Coeff_S.getD (coefIndex 1 0) 0
        ∧ GeoMag testModel.epoch testPos testModel idq
          = GeoMag testModel.epoch testPos (zeroSv testModel) idq) :=
  ⟨by decide, C7_epoch_identity testModel testPos idq 1 0 (by decide) (by decide)⟩

/-! Helper lemma: no lookup of the traversal ever touches index `0`. -/

lemma lookups_nonzero :
    ∀ p ∈ traversal, ∀ q ∈ lookupsAt p.1 p.2, coefIndex q.1 q.2 ≠ 0 := by
  decide

/-- Claim C10: the result of `GeoMag` never depends on the degree-0
entries (index `0` of the four tables): two stores with the same epoch
agreeing everywhere except at index `0` yield identical results, because
every accumulation rule reads coefficients at degree `n - 1 ≥ 1`. -/
theorem C10_degree0_entries_irrelevant
    (dyear : ℚ) (position_itrs : Vector) (w w2 : ConstModel) (sqrtf : ℚ → ℚ)
    (hep : w.epoch = w2.epoch)
    (hmc : ∀ i, i ≠ 0 →
      w.Main_Field_Coeff_C.getD i 0 = w2.Main_Field_Coeff_C.getD i 0)
    (hms : ∀ i, i ≠ 0 →
      w.Main_Field_Coeff_S.getD i 0 = w2.Main_Field_Coeff_S.getD i 0)
    (hsc : ∀ i, i ≠ 0 →
      w.Secular_Var_Coeff_C.getD i 0 = w2.Secular_Var_Coeff_C.getD i 0)
    (hss : ∀ i, i ≠ 0 →
      w.Secular_Var_Coeff_S.getD i 0 = w2.Secular_Var_Coeff_S.getD i 0) :
    GeoMag dyear position_itrs w sqrtf = GeoMag dyear position_itrs w2 sqrtf := by
  apply geoMag_model_congr
  intro p hp q hq
  have hnz := lookups_nonzero p hp q hq
  constructor
  · unfold ConstModel.C
    rw [hep, hmc _ hnz, hsc _ hnz]
  · unfold ConstModel.S
    rw [hep, hms _ hnz, hss _ hnz]

/-- Witness for C10: two concrete stores differing exactly at index `0`
of every table produce the same field. -/
theorem C10_degree0_entries_irrelevant_witness :
    testModel.epoch = testModel0.epoch
      ∧ (∀ i, i ≠ 0 →
          testModel.Main_Field_Coeff_C.getD i 0
            = testModel0.Main_Field_Coeff_C.getD i 0)
      ∧ GeoMag 2020 testPos testModel idq = GeoMag 2020 testPos testModel0 idq :=
  ⟨rfl, getD_tail_agree 3 7 [1, 2],
    C10_degree0_entries_irrelevant 2020 testPos testModel testModel0 idq rfl
      (getD_tail_agree 3 7 [1, 2]) (getD_tail_agree 0 9 [4, 5])
      (getD_tail_agree 1 5 [2, 0]) (getD_tail_agree 0 4 [1, 2])⟩

end Geomag
